import Mathlib

/-!
Verification of the ClawTaint core against its specification.

The development shallowly embeds the three core components of the
repository in Lean 4:

* the shell restriction engine (`src/taint/shell-restrictions.ts`),
* the taint level tracker and tier resolution (`src/taint/tracker.ts`),
* the URL trust checker with glob-pattern matching (`src/taint/url-trust.ts`),
* the taint-update step of the before-tool-call hook handler
  (`src/hooks/before-tool-call/handler.ts`).

JavaScript strings are modelled as `List Char`; `String.prototype.toLowerCase`
is modelled by `Char.toLower` (the inputs of interest are ASCII), `\s` and
`String.prototype.trim` by `Char.isWhitespace`.  JavaScript numbers are
modelled as `Int` (the configuration schema constrains them to [0,100] and all
arithmetic performed by the code is integral on such values).  Wall-clock
timestamps (`Date.now()`) are omitted from the event record: they are not
shallowly embeddable and no property depends on them.
-/

/-- Restriction tiers from `src/config/schema.ts` (`RestrictionTierSchema`). -/
inductive RestrictionTier where
  | permissive
  | cautious
  | restricted
  | lockdown
deriving DecidableEq, Repr

/-- Permissiveness rank of a tier: larger means more permissive.  Used to state
ordering properties; not part of the source, which orders tiers only in prose. -/
def tierRank : RestrictionTier → Nat
  | .lockdown => 0
  | .restricted => 1
  | .cautious => 2
  | .permissive => 3

/-- JS `String.prototype.includes`: `pat` occurs as a contiguous substring of `s`. -/
def strIncludes (s pat : List Char) : Bool :=
  match s with
  | [] => pat.isEmpty
  | c :: rest => List.isPrefixOf pat (c :: rest) || strIncludes rest pat

/-- JS `String.prototype.trim` (whitespace model: `Char.isWhitespace`). -/
def strTrim (s : List Char) : List Char :=
  ((s.dropWhile Char.isWhitespace).reverse.dropWhile Char.isWhitespace).reverse

namespace Shell

/-- The `ShellRestrictions` configuration object of `src/config/schema.ts`. -/
structure ShellRestrictions where
  toolNames : List String
  alwaysBlocked : List (List Char)
  dangerousCommands : List (List Char)
  safeCommands : List (List Char)
deriving DecidableEq, Repr

/-- `commandContains` of `src/taint/shell-restrictions.ts`:
`command.toLowerCase().includes(pattern.toLowerCase())`. -/
def commandContains (command pat : List Char) : Bool :=
  strIncludes (command.map Char.toLower) (pat.map Char.toLower)

/-- `extractBaseCommand` of `src/taint/shell-restrictions.ts`: trim, cut at the
first command-chaining character (`;`, `&`, `|`), trim again, take the first
whitespace-delimited token, lower-case it.  (`firstCmd.split(/\s+/)[0]` equals
the longest whitespace-free prefix: `firstCmd` is trimmed, so JS `split` never
produces a leading empty component except on the empty string, where both
sides are empty.) -/
def extractBaseCommand (command : List Char) : List Char :=
  let trimmed := strTrim command
  let firstCmd := strTrim (trimmed.takeWhile (fun c => !(c == ';' || c == '&' || c == '|')))
  (firstCmd.takeWhile (fun c => !c.isWhitespace)).map Char.toLower

/-- The base token of a configured safe entry, as computed inside `check`:
`safe.toLowerCase().split(/\s+/)[0]`.  JS `split(/\s+/)` yields an empty first
component exactly when the string starts with whitespace, which is also what
`takeWhile` of non-whitespace returns there. -/
def safeBaseToken (safe : List Char) : List Char :=
  (safe.map Char.toLower).takeWhile (fun c => !c.isWhitespace)

/-- `ShellCheckResult` of `src/taint/shell-restrictions.ts`. -/
structure ShellCheckResult where
  allowed : Bool
  reason : Option (List Char) := none
  tier : RestrictionTier
  matchedPattern : Option (List Char) := none
deriving DecidableEq, Repr

/-- The `check` function of `src/taint/shell-restrictions.ts`: always-blocked
substring scan first (the source's for-loop returning on the first match is
`List.find?`), then tier dispatch.  The source's `default` branch for an
unknown tier is unreachable here because `RestrictionTier` is closed. -/
def check (cfg : ShellRestrictions) (command : List Char) (tier : RestrictionTier) :
    ShellCheckResult :=
  match cfg.alwaysBlocked.find? (fun p => commandContains command p) with
  | some p =>
    { allowed := false,
      reason := some ("Command matches always-blocked pattern: \"".toList ++ p ++ "\"".toList),
      tier := tier,
      matchedPattern := some p }
  | none =>
    match tier with
    | .permissive => { allowed := true, tier := tier }
    | .cautious =>
      match cfg.dangerousCommands.find? (fun p => commandContains command p) with
      | some p =>
        { allowed := false,
          reason := some (("Taint level reduced to \"cautious\" tier. " ++
            "Dangerous command blocked: \"").toList ++ p ++ "\"".toList),
          tier := tier,
          matchedPattern := some p }
      | none => { allowed := true, tier := tier }
    | .restricted =>
      let baseCmd := extractBaseCommand command
      if cfg.safeCommands.any (fun safe => safeBaseToken safe == baseCmd) then
        { allowed := true, tier := tier }
      else
        { allowed := false,
          reason := some (("Taint level reduced to \"restricted\" tier. " ++
            "Only safe commands are allowed (ls, cat, echo, etc.). Command \"").toList ++
            baseCmd ++ "\" is not in the safe list.".toList),
          tier := tier }
    | .lockdown =>
      { allowed := false,
        reason := some ("Taint level critically low — LOCKDOWN. All shell commands are " ++
          "blocked. The agent has accessed too many untrusted websites.").toList,
        tier := tier }

/-- The default `shellRestrictions` configuration of `src/config/schema.ts`. -/
def defaultShellRestrictions : ShellRestrictions where
  toolNames := ["Bash", "shell", "terminal", "run_command", "execute"]
  alwaysBlocked :=
    ["rm -rf /", "mkfs", "dd if=", ":()\x7b:|:&\x7d;:", "> /dev/sda"].map String.toList
  dangerousCommands :=
    ["rm -rf", "rm -r", "rmdir", "format", "shutdown", "reboot", "halt", "poweroff",
     "init 0", "init 6", "kill -9", "killall", "pkill", "chmod 777", "chmod -R",
     "chown -R", "iptables -F", "systemctl stop", "systemctl disable", "DROP TABLE",
     "DROP DATABASE", "TRUNCATE", "DELETE FROM", "curl | sh", "curl | bash",
     "wget | sh", "wget | bash"].map String.toList
  safeCommands :=
    ["ls", "dir", "pwd", "cd", "cat", "head", "tail", "echo", "whoami", "date",
     "uname", "hostname", "env", "printenv", "which", "where", "type", "file",
     "wc", "sort", "uniq", "grep", "find", "tree", "df", "du", "free", "top",
     "ps", "uptime", "node --version", "npm --version", "python --version",
     "git status", "git log", "git diff", "git branch"].map String.toList

/-- A configuration whose safe list contains `rm` while the always-blocked
list is the default one: it separates the always-blocked rule from the
restricted-tier allow-list. -/
def safeRmConfig : ShellRestrictions :=
  { toolNames := defaultShellRestrictions.toolNames,
    alwaysBlocked := defaultShellRestrictions.alwaysBlocked,
    dangerousCommands := defaultShellRestrictions.dangerousCommands,
    safeCommands := ["rm".toList] }

end Shell

namespace Tracker

/-- A `TaintThreshold` entry of `src/config/schema.ts`: a closed taint range
mapped to a tier. -/
structure TaintThreshold where
  minTaint : Int
  maxTaint : Int
  tier : RestrictionTier
deriving DecidableEq, Repr

/-- The `TaintConfig` object of `src/config/schema.ts`. -/
structure TaintConfig where
  initialLevel : Int
  penaltyPerUntrustedUrl : Int
  recoveryPerTrustedUrl : Int
  minimumLevel : Int
  thresholds : List TaintThreshold
deriving DecidableEq, Repr

/-- The `type` field of a `TaintEvent` in `src/taint/tracker.ts`. -/
inductive EventType where
  | penalty
  | recovery
deriving DecidableEq, Repr

/-- `TaintEvent` of `src/taint/tracker.ts`.  The `timestamp` field
(`Date.now()`) is omitted: wall-clock time is outside the embedding and no
property stated below depends on it. -/
structure TaintEvent where
  eventType : EventType
  amount : Int
  reason : List Char
  url : Option (List Char) := none
  domain : Option (List Char) := none
  previousLevel : Int
  newLevel : Int
  tier : RestrictionTier
deriving DecidableEq, Repr

/-- `TaintState` of `src/taint/tracker.ts`. -/
structure TaintState where
  level : Int
  tier : RestrictionTier
  events : List TaintEvent
deriving DecidableEq, Repr

/-- Stable insertion (descending by `minTaint`) used to model
`[...thresholds].sort((a, b) => b.minTaint - a.minTaint)`.  `Array.prototype.sort`
is a stable sort (ES2019), and a stable sort with a fixed comparator has a
unique result, so a stable insertion sort is an exact model. -/
def insertByMinTaintDesc (t : TaintThreshold) : List TaintThreshold → List TaintThreshold
  | [] => [t]
  | u :: us =>
    if t.minTaint < u.minTaint then u :: insertByMinTaintDesc t us else t :: u :: us

/-- The stable descending sort of the threshold list (see `insertByMinTaintDesc`). -/
def sortByMinTaintDesc : List TaintThreshold → List TaintThreshold
  | [] => []
  | t :: ts => insertByMinTaintDesc t (sortByMinTaintDesc ts)

/-- `resolveTier` of `src/taint/tracker.ts`: sort thresholds descending by
`minTaint`, return the tier of the first range containing the level (the
source's for-loop is `List.find?`), falling back to `lockdown` for levels at or
below 0 and `permissive` otherwise. -/
def resolveTier (level : Int) (thresholds : List TaintThreshold) : RestrictionTier :=
  let sorted := sortByMinTaintDesc thresholds
  match sorted.find? (fun t => decide (t.minTaint ≤ level) && decide (level ≤ t.maxTaint)) with
  | some t => t.tier
  | none => if level ≤ 0 then .lockdown else .permissive

/-- `clampLevel` of `src/taint/tracker.ts`:
`Math.max(config.minimumLevel, Math.min(100, level))`. -/
def clampLevel (cfg : TaintConfig) (level : Int) : Int :=
  max cfg.minimumLevel (min 100 level)

/-- The initial tracker state built by `createTaintTracker`. -/
def initState (cfg : TaintConfig) : TaintState :=
  { level := cfg.initialLevel,
    tier := resolveTier cfg.initialLevel cfg.thresholds,
    events := [] }

/-- `applyPenalty` of `src/taint/tracker.ts`: subtract the configured penalty,
clamp, recompute the tier, append the event, return it together with the new
state (the source mutates `state` in place; the embedding passes it explicitly). -/
def applyPenalty (cfg : TaintConfig) (st : TaintState) (reason : List Char)
    (url domain : Option (List Char)) : TaintEvent × TaintState :=
  let newLevel := clampLevel cfg (st.level - cfg.penaltyPerUntrustedUrl)
  let newTier := resolveTier newLevel cfg.thresholds
  let event : TaintEvent :=
    { eventType := .penalty,
      amount := cfg.penaltyPerUntrustedUrl,
      reason := reason, url := url, domain := domain,
      previousLevel := st.level, newLevel := newLevel, tier := newTier }
  (event, { level := newLevel, tier := newTier, events := st.events ++ [event] })

/-- `applyRecovery` of `src/taint/tracker.ts`.  When
`recoveryPerTrustedUrl === 0` the source returns a zero-amount event early,
*without* pushing it onto `state.events`; otherwise it adds the recovery
amount, clamps, recomputes the tier and appends the event. -/
def applyRecovery (cfg : TaintConfig) (st : TaintState) (reason : List Char)
    (url domain : Option (List Char)) : TaintEvent × TaintState :=
  if cfg.recoveryPerTrustedUrl = 0 then
    ({ eventType := .recovery, amount := 0, reason := reason, url := url, domain := domain,
       previousLevel := st.level, newLevel := st.level, tier := st.tier }, st)
  else
    let newLevel := clampLevel cfg (st.level + cfg.recoveryPerTrustedUrl)
    let newTier := resolveTier newLevel cfg.thresholds
    let event : TaintEvent :=
      { eventType := .recovery,
        amount := cfg.recoveryPerTrustedUrl,
        reason := reason, url := url, domain := domain,
        previousLevel := st.level, newLevel := newLevel, tier := newTier }
    (event, { level := newLevel, tier := newTier, events := st.events ++ [event] })

/-- `reset` of `src/taint/tracker.ts`: restore the initial level, recompute the
tier, clear the history. -/
def resetState (cfg : TaintConfig) : TaintState :=
  initState cfg

/-- One mutating call on the tracker. -/
inductive TrackOp where
  | penalty (reason : List Char) (url domain : Option (List Char))
  | recovery (reason : List Char) (url domain : Option (List Char))
  | reset
deriving DecidableEq, Repr

/-- Apply one mutating call to a tracker state. -/
def applyOp (cfg : TaintConfig) (st : TaintState) : TrackOp → TaintState
  | .penalty r u d => (applyPenalty cfg st r u d).2
  | .recovery r u d => (applyRecovery cfg st r u d).2
  | .reset => resetState cfg

/-- Run a sequence of mutating calls from a state. -/
def runOps (cfg : TaintConfig) (st : TaintState) : List TrackOp → TaintState
  | [] => st
  | op :: ops => runOps cfg (applyOp cfg st op) ops

/-- The default `thresholds` of `src/config/schema.ts`. -/
def defaultThresholds : List TaintThreshold :=
  [ { minTaint := 75, maxTaint := 100, tier := .permissive },
    { minTaint := 50, maxTaint := 74, tier := .cautious },
    { minTaint := 25, maxTaint := 49, tier := .restricted },
    { minTaint := 0, maxTaint := 24, tier := .lockdown } ]

/-- The default `taint` configuration of `src/config/schema.ts`. -/
def defaultTaintConfig : TaintConfig :=
  { initialLevel := 100, penaltyPerUntrustedUrl := 10, recoveryPerTrustedUrl := 0,
    minimumLevel := 0, thresholds := defaultThresholds }

/-- A threshold range contains a level (the containment test of `resolveTier`). -/
abbrev inRange (t : TaintThreshold) (level : Int) : Prop :=
  t.minTaint ≤ level ∧ level ≤ t.maxTaint

/-- Two threshold ranges are disjoint (non-overlapping configuration). -/
abbrev ThresholdDisjoint (a b : TaintThreshold) : Prop :=
  a.maxTaint < b.minTaint ∨ b.maxTaint < a.minTaint

/-- A threshold configuration whose tier assignment is monotone: a range lying
entirely below another is assigned a tier that is no more permissive. -/
abbrev TierMonotoneCfg (L : List TaintThreshold) : Prop :=
  ∀ t1 ∈ L, ∀ t2 ∈ L, t1.maxTaint < t2.minTaint → tierRank t1.tier ≤ tierRank t2.tier

/-- An event list is a chain starting at a level: each event's `previousLevel`
is the prior event's `newLevel` (the given level for the first event). -/
def chainedFrom : Int → List TaintEvent → Prop
  | _, [] => True
  | l, e :: es => e.previousLevel = l ∧ chainedFrom e.newLevel es

/-- The `newLevel` of the last event, or the given level if there is none. -/
def lastLevel (init : Int) (events : List TaintEvent) : Int :=
  (events.getLast?).elim init (fun e => e.newLevel)

/-- Tracker invariant: the history chains from the initial level and the
current level is the last recorded `newLevel`. -/
def TrackInv (cfg : TaintConfig) (st : TaintState) : Prop :=
  chainedFrom cfg.initialLevel st.events ∧ st.level = lastLevel cfg.initialLevel st.events

/-- How many events a mutating call appends to the history: one, except
`applyRecovery` under a configured recovery amount of 0 (the source's early
return skips `state.events.push`) and `reset` (which clears the history). -/
def appendsEvent (cfg : TaintConfig) : TrackOp → Nat
  | .penalty _ _ _ => 1
  | .recovery _ _ _ => if cfg.recoveryPerTrustedUrl = 0 then 0 else 1
  | .reset => 0

/-- The current level is within the configured floor and the 100 ceiling. -/
def levelInBounds (cfg : TaintConfig) (x : Int) : Prop :=
  cfg.minimumLevel ≤ x ∧ x ≤ 100

/-- A non-overlapping, `[0,100]`-covering threshold configuration that assigns
the most permissive tier to the lowest levels: a valid input to `resolveTier`
on which tier resolution is not monotone in the level. -/
def antiMonotoneThresholds : List TaintThreshold :=
  [ { minTaint := 0, maxTaint := 50, tier := .permissive },
    { minTaint := 51, maxTaint := 100, tier := .lockdown } ]

/-- The configuration of the spec's clamping example: level 5, penalty 10,
floor 0. -/
def clampDemoConfig : TaintConfig :=
  { initialLevel := 5, penaltyPerUntrustedUrl := 10, recoveryPerTrustedUrl := 0,
    minimumLevel := 0, thresholds := defaultThresholds }

/-- A configuration with equal penalty and recovery magnitudes. -/
def equalMagnitudeConfig : TaintConfig :=
  { initialLevel := 100, penaltyPerUntrustedUrl := 5, recoveryPerTrustedUrl := 5,
    minimumLevel := 0, thresholds := defaultThresholds }

end Tracker

namespace UrlTrust

/-- Glob atoms produced by `globToRegex` in `src/taint/url-trust.ts`.  The
function emits, left to right: `.*` for `**`, `[^.]*` for a single `*`, `.` for
`?`, and a (possibly escaped) literal character otherwise; every regex
metacharacter other than `*` and `?` is escaped, so the emitted regex is
exactly the concatenation of these four kinds of atoms, anchored `^...$` with
the `i` flag. -/
inductive GlobToken where
  | star
  | dstar
  | qmark
  | lit (c : Char)
deriving DecidableEq, Repr

/-- Tokenisation performed by the scanning loop of `globToRegex`. -/
def globTokens : List Char → List GlobToken
  | [] => []
  | '*' :: '*' :: rest => .dstar :: globTokens rest
  | '*' :: rest => .star :: globTokens rest
  | '?' :: rest => .qmark :: globTokens rest
  | c :: rest => .lit c :: globTokens rest

/-- Matching semantics of the regex emitted by `globToRegex`, applied by
`RegExp.test` with `^...$` anchors and the `i` flag: `.*` consumes any
(possibly empty) prefix, `[^.]*` any (possibly empty) dot-free prefix, `.` one
character, a literal one case-insensitively equal character.  `test` only asks
whether some split matches, so greediness does not affect the result. -/
def globMatch : List GlobToken → List Char → Bool
  | [], s => s.isEmpty
  | .dstar :: ts, s =>
    (List.range (s.length + 1)).any (fun k => globMatch ts (s.drop k))
  | .star :: ts, s =>
    (List.range (s.length + 1)).any
      (fun k => (s.take k).all (fun c => !(c == '.')) && globMatch ts (s.drop k))
  | .qmark :: ts, s =>
    match s with
    | [] => false
    | _ :: rest => globMatch ts rest
  | .lit c :: ts, s =>
    match s with
    | [] => false
    | d :: rest => (c.toLower == d.toLower) && globMatch ts rest

/-- `matchesGlobPattern` of `src/taint/url-trust.ts`.  The source's
`try`/`catch` never fires: `globToRegex` escapes every metacharacter it does
not translate, so the constructed regex is always valid. -/
def matchesGlobPattern (domain pat : List Char) : Bool :=
  globMatch (globTokens pat) domain

/-- `isDomainTrusted` of `src/taint/url-trust.ts`: first matching pattern wins. -/
def isDomainTrusted (patterns : List (List Char)) (domain : List Char) : Bool :=
  patterns.any (fun p => matchesGlobPattern domain p)

/-- A dynamically-typed tool-input field value (`Record<string, unknown>`). -/
inductive JsValue where
  | str (s : List Char)
  | other
deriving DecidableEq, Repr

/-- `toolInput[field]` restricted to `typeof value === 'string'`. -/
def getStr (toolInput : List (String × JsValue)) (field : String) : Option (List Char) :=
  match toolInput.lookup field with
  | some (.str s) => some s
  | _ => none

/-- Characters that terminate the URL run of the regex
`/https?:\/\/[^\s"'`<>]+/` in `extractUrlFromContext`. -/
def urlStopChar (c : Char) : Bool :=
  c.isWhitespace || c == '"' || c == Char.ofNat 39 || c == Char.ofNat 96 ||
  c == '<' || c == '>'

/-- Leftmost match of `/https?:\/\/[^\s"'`<>]+/` in a string: at each position
try the `https://` or `http://` scheme literal followed by a non-empty maximal
run of allowed characters, else advance one character, as the regex engine does. -/
def findUrlMatch : List Char → Option (List Char)
  | [] => none
  | c :: rest =>
    if List.isPrefixOf "https://".toList (c :: rest) then
      let run := (List.drop 8 (c :: rest)).takeWhile (fun ch => !urlStopChar ch)
      if run.isEmpty then findUrlMatch rest else some ("https://".toList ++ run)
    else if List.isPrefixOf "http://".toList (c :: rest) then
      let run := (List.drop 7 (c :: rest)).takeWhile (fun ch => !urlStopChar ch)
      if run.isEmpty then findUrlMatch rest else some ("http://".toList ++ run)
    else findUrlMatch rest

/-- The direct URL-bearing field names probed by `extractUrlFromContext`, in order. -/
def urlFields : List String :=
  ["url", "href", "link", "target", "src", "source", "uri", "endpoint"]

/-- The free-text field names scanned for an embedded URL, in order. -/
def commandFields : List String := ["command", "cmd", "script", "input"]

/-- `extractUrlFromContext` of `src/taint/url-trust.ts`: prefer a non-empty
string in a direct URL field, else the first regex match inside a command-like
string field, else nothing. -/
def extractUrlFromContext (toolInput : List (String × JsValue)) : Option (List Char) :=
  match urlFields.findSome? (fun f =>
      match getStr toolInput f with
      | some v => if v.isEmpty then none else some v
      | none => none) with
  | some v => some v
  | none =>
    commandFields.findSome? (fun f =>
      match getStr toolInput f with
      | some v => findUrlMatch v
      | none => none)

/-- The host part after the last `@` of an authority (userinfo stripping). -/
def afterLastAtSign (s : List Char) : List Char :=
  (s.reverse.takeWhile (fun c => !(c == '@'))).reverse

/-- Forbidden host code points of the WHATWG URL standard (the platform's
`URL` constructor throws when the host contains one). -/
def forbiddenHostChar (c : Char) : Bool :=
  c.val < 32 || c == ' ' || c == '#' || c == '/' || c == ':' || c == '<' || c == '>' ||
  c == '?' || c == '@' || c == '[' || c == '\\' || c == ']' || c == '^' || c == '|'

/-- `extractDomain` of `src/taint/url-trust.ts`.  The scheme normalisation
(`startsWith` checks and the `https://` prepend) is the source's own code; the
`new URL(...)` call is a platform API, modelled here by the WHATWG authority
parse it performs for special schemes: authority up to the first `/`, `?` or
`#`, userinfo before the last `@` dropped, host before the first `:`, port
after it; parsing fails (the source's `catch` returns `null`) on an empty
host, a forbidden host code point, or a non-numeric port.  The hostname is
lower-cased as `parsed.hostname.toLowerCase()` does. -/
def extractDomain (url : List Char) : Option (List Char) :=
  let normalized :=
    if List.isPrefixOf "http://".toList url || List.isPrefixOf "https://".toList url then url
    else "https://".toList ++ url
  let rest :=
    if List.isPrefixOf "https://".toList normalized then normalized.drop 8
    else normalized.drop 7
  let authority := rest.takeWhile (fun c => !(c == '/' || c == '?' || c == '#'))
  let hostport := afterLastAtSign authority
  let host := hostport.takeWhile (fun c => !(c == ':'))
  let port := (hostport.dropWhile (fun c => !(c == ':'))).drop 1
  if host.isEmpty then none
  else if host.any forbiddenHostChar then none
  else if !(port.all Char.isDigit) then none
  else some (host.map Char.toLower)

/-- `UrlCheckResult` of `src/taint/url-trust.ts`. -/
structure UrlCheckResult where
  urlFound : Bool
  url : Option (List Char) := none
  domain : Option (List Char) := none
  trusted : Bool
  matchedPattern : Option (List Char) := none
deriving DecidableEq, Repr

/-- The `check` function of `src/taint/url-trust.ts`: no URL found means
`urlFound: false, trusted: true`; a URL whose domain cannot be extracted means
`urlFound: true, trusted: false`; otherwise the first matching trusted pattern
decides. -/
def check (patterns : List (List Char)) (toolInput : List (String × JsValue)) :
    UrlCheckResult :=
  match extractUrlFromContext toolInput with
  | none => { urlFound := false, trusted := true }
  | some url =>
    match extractDomain url with
    | none => { urlFound := true, url := some url, trusted := false }
    | some domain =>
      match patterns.find? (fun p => matchesGlobPattern domain p) with
      | some p =>
        { urlFound := true, url := some url, domain := some domain,
          trusted := true, matchedPattern := some p }
      | none =>
        { urlFound := true, url := some url, domain := some domain, trusted := false }

end UrlTrust

namespace Hook

/-- The taint-update step (step 2) of the before-tool-call handler in
`src/hooks/before-tool-call/handler.ts`: run the URL trust check and, only if
a URL was found, apply a recovery (trusted) or a penalty (untrusted) with the
reasons the handler builds; with no URL found the tracker state is untouched. -/
def handlerTaintUpdate (patterns : List (List Char)) (cfg : Tracker.TaintConfig)
    (st : Tracker.TaintState) (toolInput : List (String × UrlTrust.JsValue)) :
    Tracker.TaintState :=
  let urlCheck := UrlTrust.check patterns toolInput
  if urlCheck.urlFound then
    if urlCheck.trusted then
      (Tracker.applyRecovery cfg st
        ("Accessed trusted URL: ".toList ++ urlCheck.domain.getD "undefined".toList)
        urlCheck.url urlCheck.domain).2
    else
      (Tracker.applyPenalty cfg st
        ("Accessed untrusted URL: ".toList ++ urlCheck.domain.getD (urlCheck.url.getD []))
        urlCheck.url urlCheck.domain).2
  else st

end Hook

namespace Tracker

/-- Membership in the stable insertion used by the threshold sort. -/
theorem mem_insertByMinTaintDesc (x t : TaintThreshold) (l : List TaintThreshold) :
    x ∈ insertByMinTaintDesc t l ↔ x = t ∨ x ∈ l := by
  induction l with
  | nil => simp [insertByMinTaintDesc]
  | cons u us ih =>
    simp only [insertByMinTaintDesc]
    split
    · simp only [List.mem_cons, ih]
      tauto
    · simp only [List.mem_cons]

/-- The threshold sort does not change the set of thresholds. -/
theorem mem_sortByMinTaintDesc (x : TaintThreshold) (l : List TaintThreshold) :
    x ∈ sortByMinTaintDesc l ↔ x ∈ l := by
  induction l with
  | nil => simp [sortByMinTaintDesc]
  | cons t ts ih =>
    simp only [sortByMinTaintDesc, mem_insertByMinTaintDesc, ih, List.mem_cons]

/-- Two members of a pairwise-related list are equal or related. -/
theorem pairwise_mem_eq_or_rel {α : Type} {R : α → α → Prop}
    (hsym : ∀ a b, R a b → R b a) {l : List α} (hl : l.Pairwise R)
    {a b : α} (ha : a ∈ l) (hb : b ∈ l) : a = b ∨ R a b := by
  induction hl with
  | nil => simp at ha
  | cons hhead _ ih =>
    rcases List.mem_cons.mp ha with rfl | ha' <;> rcases List.mem_cons.mp hb with rfl | hb'
    · exact Or.inl rfl
    · exact Or.inr (hhead _ hb')
    · exact Or.inr (hsym _ _ (hhead _ ha'))
    · exact ih ha' hb'

/-- With pairwise disjoint ranges, at most one threshold contains a level. -/
theorem inRange_unique {L : List TaintThreshold} (hd : L.Pairwise ThresholdDisjoint)
    {s : Int} {t t' : TaintThreshold} (ht : t ∈ L) (ht' : t' ∈ L)
    (hr : inRange t s) (hr' : inRange t' s) : t = t' := by
  rcases pairwise_mem_eq_or_rel (fun _ _ h => Or.symm h) hd ht ht' with heq | hrel
  · exact heq
  · obtain ⟨h1, h2⟩ := hr
    obtain ⟨h3, h4⟩ := hr'
    rcases hrel with h | h <;> (exfalso; omega)

/-- If some configured threshold contains the level, `resolveTier` returns the
tier of a containing threshold. -/
theorem resolveTier_spec_of_inRange {L : List TaintThreshold} {s : Int}
    (hex : ∃ t ∈ L, inRange t s) :
    ∃ t ∈ L, inRange t s ∧ resolveTier s L = t.tier := by
  have hex' : ∃ t ∈ sortByMinTaintDesc L,
      (decide (t.minTaint ≤ s) && decide (s ≤ t.maxTaint)) = true := by
    obtain ⟨t, htL, h1, h2⟩ := hex
    exact ⟨t, (mem_sortByMinTaintDesc t L).mpr htL, by simp [h1, h2]⟩
  obtain ⟨t, hfind⟩ := Option.isSome_iff_exists.mp (List.find?_isSome.mpr hex')
  have hmem := List.mem_of_find?_eq_some hfind
  have hpred := List.find?_some hfind
  simp only [Bool.and_eq_true, decide_eq_true_eq] at hpred
  exact ⟨t, (mem_sortByMinTaintDesc t L).mp hmem, hpred, by simp [resolveTier, hfind]⟩

end Tracker

namespace Tracker

/-- Peeling the first event of a chain restarts the chain at its `newLevel`. -/
theorem lastLevel_cons (init : Int) (f : TaintEvent) (fs : List TaintEvent) :
    lastLevel init (f :: fs) = lastLevel f.newLevel fs := by
  induction fs generalizing init f with
  | nil => rfl
  | cons g gs ih =>
    have h1 : lastLevel init (f :: g :: gs) = lastLevel init (g :: gs) := by
      simp [lastLevel, List.getLast?_cons_cons]
    rw [h1, ih init g, ih f.newLevel g]

/-- The last level after appending an event is that event's `newLevel`. -/
theorem lastLevel_concat (init : Int) (es : List TaintEvent) (e : TaintEvent) :
    lastLevel init (es ++ [e]) = e.newLevel := by
  simp [lastLevel, List.getLast?_concat]

/-- Appending an event whose `previousLevel` is the current last level keeps
the history a chain. -/
theorem chainedFrom_concat {init : Int} {es : List TaintEvent} {e : TaintEvent}
    (h : chainedFrom init es) (he : e.previousLevel = lastLevel init es) :
    chainedFrom init (es ++ [e]) := by
  induction es generalizing init with
  | nil => exact ⟨he, trivial⟩
  | cons f fs ih =>
    obtain ⟨hf, hrest⟩ := h
    rw [lastLevel_cons] at he
    exact ⟨hf, ih hrest he⟩

/-- `clampLevel` lands in `[minimumLevel, 100]` whenever the floor is at most
the ceiling. -/
theorem clampLevel_bounds (cfg : TaintConfig) (hm : cfg.minimumLevel ≤ 100) (x : Int) :
    levelInBounds cfg (clampLevel cfg x) := by
  unfold levelInBounds clampLevel
  omega

/-- Each mutating call preserves the tracker invariant and appends exactly
`appendsEvent` events. -/
theorem applyOp_inv (cfg : TaintConfig) (st : TaintState) (hinv : TrackInv cfg st)
    (op : TrackOp) (hop : op ≠ TrackOp.reset) :
    TrackInv cfg (applyOp cfg st op) ∧
    (applyOp cfg st op).events.length = st.events.length + appendsEvent cfg op := by
  obtain ⟨hch, hlv⟩ := hinv
  cases op with
  | penalty r u d =>
    have hev : (applyOp cfg st (TrackOp.penalty r u d)).events
        = st.events ++ [(applyPenalty cfg st r u d).1] := rfl
    refine ⟨⟨?_, ?_⟩, ?_⟩
    · rw [hev]
      exact chainedFrom_concat hch hlv
    · rw [hev, lastLevel_concat]
      rfl
    · rw [hev]
      simp [appendsEvent]
  | recovery r u d =>
    by_cases hz : cfg.recoveryPerTrustedUrl = 0
    · have hst : applyOp cfg st (TrackOp.recovery r u d) = st := by
        simp [applyOp, applyRecovery, hz]
      rw [hst]
      exact ⟨⟨hch, hlv⟩, by simp [appendsEvent, hz]⟩
    · have hev : (applyOp cfg st (TrackOp.recovery r u d)).events
          = st.events ++ [(applyRecovery cfg st r u d).1] := by
        simp [applyOp, applyRecovery, hz]
      have hprev : (applyRecovery cfg st r u d).1.previousLevel = st.level := by
        simp [applyRecovery, hz]
      have hnew : (applyOp cfg st (TrackOp.recovery r u d)).level
          = (applyRecovery cfg st r u d).1.newLevel := by
        simp [applyOp, applyRecovery, hz]
      refine ⟨⟨?_, ?_⟩, ?_⟩
      · rw [hev]
        exact chainedFrom_concat hch (hprev.trans hlv)
      · rw [hev, lastLevel_concat, hnew]
      · rw [hev]
        simp [appendsEvent, hz]
  | reset => exact absurd rfl hop

/-- Running a reset-free sequence of mutating calls preserves the invariant
and grows the history by the sum of the per-call append counts. -/
theorem runOps_inv (cfg : TaintConfig) :
    ∀ (ops : List TrackOp) (st : TaintState), TrackInv cfg st → TrackOp.reset ∉ ops →
    TrackInv cfg (runOps cfg st ops) ∧
    (runOps cfg st ops).events.length =
      st.events.length + (ops.map (appendsEvent cfg)).sum := by
  intro ops
  induction ops with
  | nil => exact fun st h _ => ⟨h, by simp [runOps]⟩
  | cons op ops ih =>
    intro st hinv hnr
    have hop : op ≠ TrackOp.reset := fun h => hnr (h ▸ List.mem_cons_self op ops)
    have hnr' : TrackOp.reset ∉ ops := fun h => hnr (List.mem_cons_of_mem op h)
    obtain ⟨hinv', hlen'⟩ := applyOp_inv cfg st hinv op hop
    obtain ⟨hinv'', hlen''⟩ := ih (applyOp cfg st op) hinv' hnr'
    refine ⟨hinv'', ?_⟩
    simp only [runOps] at hlen'' ⊢
    rw [hlen'', hlen']
    simp [Nat.add_assoc]

/-- Each mutating call keeps the level within the configured bounds, given a
configured initial level within them. -/
theorem applyOp_level_bounds (cfg : TaintConfig)
    (h1 : cfg.minimumLevel ≤ cfg.initialLevel) (h2 : cfg.initialLevel ≤ 100)
    (st : TaintState) (hst : levelInBounds cfg st.level) (op : TrackOp) :
    levelInBounds cfg (applyOp cfg st op).level := by
  have hm : cfg.minimumLevel ≤ 100 := le_trans h1 h2
  cases op with
  | penalty r u d =>
    simpa [applyOp, applyPenalty] using clampLevel_bounds cfg hm _
  | recovery r u d =>
    by_cases hz : cfg.recoveryPerTrustedUrl = 0
    · simpa [applyOp, applyRecovery, hz] using hst
    · simpa [applyOp, applyRecovery, hz] using clampLevel_bounds cfg hm _
  | reset => exact ⟨h1, h2⟩

/-- Bounds on the level are stable under any sequence of mutating calls. -/
theorem runOps_level_bounds (cfg : TaintConfig)
    (h1 : cfg.minimumLevel ≤ cfg.initialLevel) (h2 : cfg.initialLevel ≤ 100) :
    ∀ (ops : List TrackOp) (st : TaintState), levelInBounds cfg st.level →
    levelInBounds cfg (runOps cfg st ops).level := by
  intro ops
  induction ops with
  | nil => exact fun st h => h
  | cons op ops ih =>
    intro st hst
    exact ih _ (applyOp_level_bounds cfg h1 h2 st hst op)

end Tracker

/-- C1: for every command string, every restriction tier and every configured
always-blocked list, if the command contains some always-blocked entry as a
case-insensitive substring then `check` returns `allowed = false` — at every
tier, including permissive — and reports the matched pattern. -/
theorem alwaysBlocked_blocks_all_tiers (cfg : Shell.ShellRestrictions)
    (command : List Char) (tier : RestrictionTier)
    (h : ∃ p ∈ cfg.alwaysBlocked, Shell.commandContains command p = true) :
    (Shell.check cfg command tier).allowed = false ∧
    ∃ p ∈ cfg.alwaysBlocked, Shell.commandContains command p = true ∧
      (Shell.check cfg command tier).matchedPattern = some p := by
  obtain ⟨p, hfind⟩ := Option.isSome_iff_exists.mp (List.find?_isSome.mpr h)
  have hmem := List.mem_of_find?_eq_some hfind
  have hpred := List.find?_some hfind
  exact ⟨by simp [Shell.check, hfind], p, hmem, hpred, by simp [Shell.check, hfind]⟩

/-- C1 witness: `rm -rf /` matches the default always-blocked list and is
blocked at the permissive tier with the pattern reported. -/
theorem alwaysBlocked_blocks_all_tiers_witness :
    (Shell.check Shell.defaultShellRestrictions "rm -rf /".toList .permissive).allowed
      = false ∧
    ∃ p ∈ Shell.defaultShellRestrictions.alwaysBlocked,
      Shell.commandContains "rm -rf /".toList p = true ∧
      (Shell.check Shell.defaultShellRestrictions "rm -rf /".toList
        .permissive).matchedPattern = some p :=
  alwaysBlocked_blocks_all_tiers Shell.defaultShellRestrictions "rm -rf /".toList
    .permissive (by decide)

/-- C3 counterexample: with `rm` configured as a safe command, the command
`rm -rf /` has a base token (`rm`) equal to the base token of a safe entry,
yet `check` at the restricted tier returns `allowed = false` (the
always-blocked rule fires first), refuting the claimed "if and only if". -/
theorem restricted_iff_counterexample :
    (∃ s ∈ Shell.safeRmConfig.safeCommands,
      Shell.safeBaseToken s = Shell.extractBaseCommand "rm -rf /".toList) ∧
    (Shell.check Shell.safeRmConfig "rm -rf /".toList .restricted).allowed = false := by
  decide

/-- C3 (amended): for every command and configuration, at the restricted tier
and provided no always-blocked entry occurs in the command (the absolute
denylist is consulted first), `check` returns `allowed = true` if and only if
the base token of the command equals the base token of some safe entry. -/
theorem restricted_allows_iff_safeBase (cfg : Shell.ShellRestrictions)
    (command : List Char)
    (h : ∀ p ∈ cfg.alwaysBlocked, Shell.commandContains command p = false) :
    (Shell.check cfg command .restricted).allowed = true ↔
      ∃ s ∈ cfg.safeCommands,
        Shell.safeBaseToken s = Shell.extractBaseCommand command := by
  have hnone : cfg.alwaysBlocked.find? (fun p => Shell.commandContains command p) = none := by
    apply List.find?_eq_none.mpr
    intro p hp
    simp [h p hp]
  by_cases hs : cfg.safeCommands.any
      (fun safe => Shell.safeBaseToken safe == Shell.extractBaseCommand command) = true
  · have hex := hs
    simp only [List.any_eq_true, beq_iff_eq] at hex
    simp [Shell.check, hnone, hs, hex]
  · have hex := hs
    simp only [List.any_eq_true, beq_iff_eq] at hex
    simp only [Bool.not_eq_true] at hs
    simp [Shell.check, hnone, hs, hex]

/-- C3 witness: `ls -la /tmp` contains no always-blocked entry and is allowed
at the restricted tier exactly because `ls` is the base token of a safe entry. -/
theorem restricted_allows_iff_safeBase_witness :
    (Shell.check Shell.defaultShellRestrictions "ls -la /tmp".toList
      .restricted).allowed = true ↔
    ∃ s ∈ Shell.defaultShellRestrictions.safeCommands,
      Shell.safeBaseToken s = Shell.extractBaseCommand "ls -la /tmp".toList :=
  restricted_allows_iff_safeBase Shell.defaultShellRestrictions "ls -la /tmp".toList
    (by decide)

/-- C2 counterexample: the claim says pattern `**.github.com` classifies the
domain `github.com` as trusted; under the compiled matcher (`**` becomes `.*`,
but the following literal `.` must still be matched) it does not. -/
theorem doubleStar_github_counterexample :
    UrlTrust.isDomainTrusted ["**.github.com".toList] "github.com".toList = false := by
  decide

/-- C2 (amended): pattern `*.github.com` classifies `docs.github.com` as
trusted and `github.com` as untrusted; pattern `**.github.com` likewise
classifies `docs.github.com` as trusted and `github.com` as untrusted, since
the literal dot preceding `github.com` in the pattern must still be matched. -/
theorem github_glob_classification :
    UrlTrust.isDomainTrusted ["*.github.com".toList] "docs.github.com".toList = true ∧
    UrlTrust.isDomainTrusted ["*.github.com".toList] "github.com".toList = false ∧
    UrlTrust.isDomainTrusted ["**.github.com".toList] "docs.github.com".toList = true ∧
    UrlTrust.isDomainTrusted ["**.github.com".toList] "github.com".toList = false := by
  decide

/-- C4 counterexample: with the default configuration (recovery amount 0), a
single mutating call — `applyRecovery` — leaves the history empty: the source
returns the zero-magnitude event without pushing it, so after 1 mutating call
the history has length 0, not 1. -/
theorem zeroRecovery_history_counterexample :
    (Tracker.runOps Tracker.defaultTaintConfig
      (Tracker.initState Tracker.defaultTaintConfig)
      [Tracker.TrackOp.recovery "trusted".toList none none]).events.length = 0 := by
  decide

/-- C4 (amended): every mutating call appends exactly one `TaintEvent`, except
`applyRecovery` when the configured recovery amount is 0, which returns a
magnitude-0, no-level-change event without appending it; hence after a
reset-free sequence of mutating calls the history length is the number of
calls minus the number of zero-recovery calls, in call order, with each
event's `previousLevel` equal to the prior event's `newLevel` (the initial
level for the first event). -/
theorem history_length_chain (cfg : Tracker.TaintConfig) (ops : List Tracker.TrackOp)
    (hnr : Tracker.TrackOp.reset ∉ ops) :
    (Tracker.runOps cfg (Tracker.initState cfg) ops).events.length =
      (ops.map (Tracker.appendsEvent cfg)).sum ∧
    Tracker.chainedFrom cfg.initialLevel
      (Tracker.runOps cfg (Tracker.initState cfg) ops).events := by
  have h := Tracker.runOps_inv cfg ops (Tracker.initState cfg) ⟨trivial, rfl⟩ hnr
  exact ⟨by simpa [Tracker.initState] using h.2, h.1.1⟩

/-- C4 witness: a penalty then a recovery under the default (zero-recovery)
configuration yields a one-event chained history. -/
theorem history_length_chain_witness :
    Tracker.TrackOp.reset ∉ [Tracker.TrackOp.penalty "a".toList none none,
      Tracker.TrackOp.recovery "b".toList none none] ∧
    ((Tracker.runOps Tracker.defaultTaintConfig
        (Tracker.initState Tracker.defaultTaintConfig)
        [Tracker.TrackOp.penalty "a".toList none none,
         Tracker.TrackOp.recovery "b".toList none none]).events.length =
      ([Tracker.TrackOp.penalty "a".toList none none,
        Tracker.TrackOp.recovery "b".toList none none].map
          (Tracker.appendsEvent Tracker.defaultTaintConfig)).sum ∧
     Tracker.chainedFrom Tracker.defaultTaintConfig.initialLevel
       (Tracker.runOps Tracker.defaultTaintConfig
         (Tracker.initState Tracker.defaultTaintConfig)
         [Tracker.TrackOp.penalty "a".toList none none,
          Tracker.TrackOp.recovery "b".toList none none]).events) :=
  ⟨by decide,
   history_length_chain Tracker.defaultTaintConfig
     [Tracker.TrackOp.penalty "a".toList none none,
      Tracker.TrackOp.recovery "b".toList none none] (by decide)⟩

/-- C5: for every tracker constructed with an initial level in
`[minimumLevel, 100]` and every sequence of penalty/recovery/reset calls, the
current level stays in `[minimumLevel, 100]` (penalties clamp at the floor,
recoveries at 100, reset restores the in-range initial level). -/
theorem level_bounded (cfg : Tracker.TaintConfig)
    (h1 : cfg.minimumLevel ≤ cfg.initialLevel) (h2 : cfg.initialLevel ≤ 100)
    (ops : List Tracker.TrackOp) :
    cfg.minimumLevel ≤ (Tracker.runOps cfg (Tracker.initState cfg) ops).level ∧
    (Tracker.runOps cfg (Tracker.initState cfg) ops).level ≤ 100 :=
  Tracker.runOps_level_bounds cfg h1 h2 ops (Tracker.initState cfg) ⟨h1, h2⟩

/-- C5 witness: the spec's boundary example — floor 0, penalty 10 from level 5
— stays in bounds (the level clamps to 0, not -5). -/
theorem level_bounded_witness :
    Tracker.clampDemoConfig.minimumLevel ≤
      (Tracker.runOps Tracker.clampDemoConfig
        (Tracker.initState Tracker.clampDemoConfig)
        [Tracker.TrackOp.penalty "p".toList none none]).level ∧
    (Tracker.runOps Tracker.clampDemoConfig
      (Tracker.initState Tracker.clampDemoConfig)
      [Tracker.TrackOp.penalty "p".toList none none]).level ≤ 100 :=
  level_bounded Tracker.clampDemoConfig (by decide) (by decide)
    [Tracker.TrackOp.penalty "p".toList none none]

/-- C7: for every threshold configuration and every level contained in no
configured range, `resolveTier` applies the conservative fallback: a level at
or below 0 resolves to lockdown, a level at or above 100 to permissive. -/
theorem resolveTier_fallback (L : List Tracker.TaintThreshold) (level : Int)
    (h : ∀ t ∈ L, ¬ Tracker.inRange t level) :
    (level ≤ 0 → Tracker.resolveTier level L = .lockdown) ∧
    (100 ≤ level → Tracker.resolveTier level L = .permissive) := by
  have hnone : (Tracker.sortByMinTaintDesc L).find?
      (fun t => decide (t.minTaint ≤ level) && decide (level ≤ t.maxTaint)) = none := by
    apply List.find?_eq_none.mpr
    intro t ht
    have h' := h t ((Tracker.mem_sortByMinTaintDesc t L).mp ht)
    simp only [Bool.and_eq_true, decide_eq_true_eq]
    exact fun hc => h' hc
  constructor
  · intro h0
    simp [Tracker.resolveTier, hnone, if_pos h0]
  · intro h100
    have h0 : ¬ level ≤ 0 := by omega
    simp [Tracker.resolveTier, hnone, if_neg h0]

/-- C7 witness: level -3 lies in no default range and resolves to lockdown
(the `100 ≤ -3` branch is vacuous). -/
theorem resolveTier_fallback_witness :
    ((-3 : Int) ≤ 0 → Tracker.resolveTier (-3) Tracker.defaultThresholds = .lockdown) ∧
    ((100 : Int) ≤ -3 → Tracker.resolveTier (-3) Tracker.defaultThresholds = .permissive) :=
  resolveTier_fallback Tracker.defaultThresholds (-3) (by decide)

/-- C8: `applyPenalty` immediately followed by `applyRecovery` with equal
configured magnitudes returns the level to its pre-penalty value whenever
neither operation's clamp (at the floor or at 100) alters its argument. -/
theorem penalty_recovery_roundtrip (cfg : Tracker.TaintConfig)
    (st : Tracker.TaintState) (r1 r2 : List Char)
    (heq : cfg.recoveryPerTrustedUrl = cfg.penaltyPerUntrustedUrl)
    (hp : Tracker.clampLevel cfg (st.level - cfg.penaltyPerUntrustedUrl)
        = st.level - cfg.penaltyPerUntrustedUrl)
    (hr : Tracker.clampLevel cfg
          (st.level - cfg.penaltyPerUntrustedUrl + cfg.recoveryPerTrustedUrl)
        = st.level - cfg.penaltyPerUntrustedUrl + cfg.recoveryPerTrustedUrl) :
    ((Tracker.applyRecovery cfg (Tracker.applyPenalty cfg st r1 none none).2
        r2 none none).2).level = st.level := by
  by_cases hz : cfg.recoveryPerTrustedUrl = 0
  · have hlvl : ((Tracker.applyRecovery cfg (Tracker.applyPenalty cfg st r1 none none).2
        r2 none none).2).level = Tracker.clampLevel cfg (st.level - cfg.penaltyPerUntrustedUrl) := by
      simp [Tracker.applyRecovery, Tracker.applyPenalty, hz]
    rw [hlvl, hp]
    omega
  · have hlvl : ((Tracker.applyRecovery cfg (Tracker.applyPenalty cfg st r1 none none).2
        r2 none none).2).level
        = Tracker.clampLevel cfg (Tracker.clampLevel cfg
            (st.level - cfg.penaltyPerUntrustedUrl) + cfg.recoveryPerTrustedUrl) := by
      simp [Tracker.applyRecovery, Tracker.applyPenalty, hz]
    rw [hlvl, hp, hr]
    omega

/-- C8 witness: penalty 5 then recovery 5 from level 100: the penalty lands at
95 and the recovery returns to 100, with both clamps inert. -/
theorem penalty_recovery_roundtrip_witness :
    ((Tracker.applyRecovery Tracker.equalMagnitudeConfig
        (Tracker.applyPenalty Tracker.equalMagnitudeConfig
          (Tracker.initState Tracker.equalMagnitudeConfig) "p".toList none none).2
        "r".toList none none).2).level
      = (Tracker.initState Tracker.equalMagnitudeConfig).level :=
  penalty_recovery_roundtrip Tracker.equalMagnitudeConfig
    (Tracker.initState Tracker.equalMagnitudeConfig) "p".toList "r".toList
    (by decide) (by decide) (by decide)

/-- C10: every penalty event's `amount` is the configured penalty, even when
clamping at the floor made the level change smaller; in the spec's example
(level 5, penalty 10, floor 0) the amount (10) differs from
`previousLevel - newLevel` (5). -/
theorem penalty_amount_configured :
    (∀ (cfg : Tracker.TaintConfig) (st : Tracker.TaintState) (r : List Char)
        (u d : Option (List Char)),
      (Tracker.applyPenalty cfg st r u d).1.amount = cfg.penaltyPerUntrustedUrl) ∧
    (Tracker.applyPenalty Tracker.clampDemoConfig
        (Tracker.initState Tracker.clampDemoConfig) "p".toList none none).1.amount ≠
      (Tracker.applyPenalty Tracker.clampDemoConfig
        (Tracker.initState Tracker.clampDemoConfig) "p".toList none none).1.previousLevel -
      (Tracker.applyPenalty Tracker.clampDemoConfig
        (Tracker.initState Tracker.clampDemoConfig) "p".toList none none).1.newLevel := by
  exact ⟨fun cfg st r u d => rfl, by decide⟩

/-- C6 counterexample: a non-overlapping configuration covering [0,100] whose
tier assignment is inverted (permissive on [0,50], lockdown on [51,100])
makes `resolveTier` anti-monotone: the tier at level 0 is strictly more
permissive than the tier at level 100, refuting the claim as stated for
arbitrary non-overlapping covering configurations. -/
theorem resolveTier_monotone_counterexample :
    Tracker.antiMonotoneThresholds.Pairwise Tracker.ThresholdDisjoint ∧
    (∀ s : Int, 0 ≤ s → s ≤ 100 →
      ∃ t ∈ Tracker.antiMonotoneThresholds, Tracker.inRange t s) ∧
    (0 : Int) ≤ 100 ∧
    ¬ tierRank (Tracker.resolveTier 0 Tracker.antiMonotoneThresholds) ≤
      tierRank (Tracker.resolveTier 100 Tracker.antiMonotoneThresholds) := by
  refine ⟨by decide, ?_, by decide, by decide⟩
  intro s h0 h1
  by_cases h : s ≤ 50
  · exact ⟨⟨0, 50, .permissive⟩, by decide, h0, h⟩
  · refine ⟨⟨51, 100, .lockdown⟩, by decide, ?_, h1⟩
    show (51 : Int) ≤ s
    omega

/-- C6 (amended): for every trust score in [0,100] and every non-overlapping
tier configuration covering [0,100] *whose tier assignment is monotone* (a
range lying entirely below another is assigned a tier no more permissive),
tier resolution returns the tier of the unique containing range, and it is
monotone: s1 ≤ s2 implies the tier at s1 is no more permissive than at s2. -/
theorem resolveTier_unique_monotone (L : List Tracker.TaintThreshold)
    (hd : L.Pairwise Tracker.ThresholdDisjoint)
    (hc : ∀ s : Int, 0 ≤ s → s ≤ 100 → ∃ t ∈ L, Tracker.inRange t s)
    (hm : Tracker.TierMonotoneCfg L) :
    (∀ s : Int, 0 ≤ s → s ≤ 100 →
      ∃ t ∈ L, Tracker.inRange t s ∧ Tracker.resolveTier s L = t.tier ∧
        ∀ t' ∈ L, Tracker.inRange t' s → t' = t) ∧
    (∀ s1 s2 : Int, 0 ≤ s1 → s1 ≤ s2 → s2 ≤ 100 →
      tierRank (Tracker.resolveTier s1 L) ≤ tierRank (Tracker.resolveTier s2 L)) := by
  constructor
  · intro s h0 h1
    obtain ⟨t, htL, htr, hres⟩ := Tracker.resolveTier_spec_of_inRange (hc s h0 h1)
    exact ⟨t, htL, htr, hres,
      fun t' ht' htr' => Tracker.inRange_unique hd ht' htL htr' htr⟩
  · intro s1 s2 h0 h12 h100
    obtain ⟨t1, ht1, hr1, he1⟩ :=
      Tracker.resolveTier_spec_of_inRange (hc s1 h0 (le_trans h12 h100))
    obtain ⟨t2, ht2, hr2, he2⟩ :=
      Tracker.resolveTier_spec_of_inRange (hc s2 (le_trans h0 h12) h100)
    rw [he1, he2]
    rcases Tracker.pairwise_mem_eq_or_rel (fun _ _ h => Or.symm h) hd ht1 ht2 with
      rfl | hrel
    · exact le_refl _
    · rcases hrel with h | h
      · exact hm t1 ht1 t2 ht2 h
      · obtain ⟨ha, hb⟩ := hr1
        obtain ⟨hc', hd'⟩ := hr2
        exact absurd h (by omega)

/-- C6 witness: the default threshold configuration is disjoint, covering and
tier-monotone, so on it `resolveTier` is unique and monotone. -/
theorem resolveTier_unique_monotone_witness :
    (∀ s : Int, 0 ≤ s → s ≤ 100 →
      ∃ t ∈ Tracker.defaultThresholds, Tracker.inRange t s ∧
        Tracker.resolveTier s Tracker.defaultThresholds = t.tier ∧
        ∀ t' ∈ Tracker.defaultThresholds, Tracker.inRange t' s → t' = t) ∧
    (∀ s1 s2 : Int, 0 ≤ s1 → s1 ≤ s2 → s2 ≤ 100 →
      tierRank (Tracker.resolveTier s1 Tracker.defaultThresholds) ≤
        tierRank (Tracker.resolveTier s2 Tracker.defaultThresholds)) :=
  resolveTier_unique_monotone Tracker.defaultThresholds (by decide)
    (fun s h0 h1 => by
      by_cases h75 : 75 ≤ s
      · exact ⟨⟨75, 100, .permissive⟩, by decide, h75, h1⟩
      · by_cases h50 : 50 ≤ s
        · exact ⟨⟨50, 74, .cautious⟩, by decide, h50, show s ≤ (74 : Int) by omega⟩
        · by_cases h25 : 25 ≤ s
          · exact ⟨⟨25, 49, .restricted⟩, by decide, h25, show s ≤ (49 : Int) by omega⟩
          · exact ⟨⟨0, 24, .lockdown⟩, by decide, h0, show s ≤ (24 : Int) by omega⟩)
    (by decide)

/-- C9: for every tool-input payload, if no URL is found in any inspected
field the check reports `urlFound = false` (with no URL recorded) and the
handler's taint-update step leaves the tracker state untouched; if a URL is
found but domain extraction fails, the check reports `urlFound = true` with
the URL recorded and `trusted = false` (fail closed), distinguishable from
the no-URL result. -/
theorem check_absence_and_malformed (patterns : List (List Char))
    (cfg : Tracker.TaintConfig) (st : Tracker.TaintState)
    (toolInput : List (String × UrlTrust.JsValue)) :
    (UrlTrust.extractUrlFromContext toolInput = none →
      (UrlTrust.check patterns toolInput).urlFound = false ∧
      (UrlTrust.check patterns toolInput).url = none ∧
      Hook.handlerTaintUpdate patterns cfg st toolInput = st) ∧
    (∀ url : List Char, UrlTrust.extractUrlFromContext toolInput = some url →
      UrlTrust.extractDomain url = none →
      (UrlTrust.check patterns toolInput).urlFound = true ∧
      (UrlTrust.check patterns toolInput).url = some url ∧
      (UrlTrust.check patterns toolInput).trusted = false) := by
  constructor
  · intro hnone
    refine ⟨?_, ?_, ?_⟩ <;>
      simp [UrlTrust.check, Hook.handlerTaintUpdate, hnone]
  · intro url hsome hdom
    refine ⟨?_, ?_, ?_⟩ <;> simp [UrlTrust.check, hsome, hdom]

/-- C9 witness: an empty payload yields a no-URL, no-mutation result; a `url`
field holding `:::` (a URL whose host cannot be parsed) yields a found-but-
untrusted result. -/
theorem check_absence_and_malformed_witness :
    ((UrlTrust.check [] []).urlFound = false ∧
      (UrlTrust.check [] []).url = none ∧
      Hook.handlerTaintUpdate [] Tracker.defaultTaintConfig
        (Tracker.initState Tracker.defaultTaintConfig) [] =
        Tracker.initState Tracker.defaultTaintConfig) ∧
    ((UrlTrust.check [] [("url", UrlTrust.JsValue.str ":::".toList)]).urlFound = true ∧
      (UrlTrust.check [] [("url", UrlTrust.JsValue.str ":::".toList)]).url =
        some ":::".toList ∧
      (UrlTrust.check [] [("url", UrlTrust.JsValue.str ":::".toList)]).trusted = false) :=
  ⟨(check_absence_and_malformed [] Tracker.defaultTaintConfig
      (Tracker.initState Tracker.defaultTaintConfig) []).1 (by decide),
   (check_absence_and_malformed [] Tracker.defaultTaintConfig
      (Tracker.initState Tracker.defaultTaintConfig)
      [("url", UrlTrust.JsValue.str ":::".toList)]).2
     ":::".toList (by decide) (by decide)⟩
